import Mathlib

/-!
Verification of the check-in subsystem of the Stress Congress 2026 event app.

The registry is embedded as a list of user rows in insertion order, mirroring
the users table of shared/schema.ts.  The REST handlers of the routes file
(POST /api/check-in, POST /api/manual-check-in, POST /api/check-out) and the
storage functions of server/storage.ts are embedded as pure functions from the
registry (plus a clock value) to a result and a new registry.  Timestamps are
natural numbers; the JavaScript Date value new Date() becomes an explicit
clock argument called now.
-/

/-- Embedding of one row of the users table (shared/schema.ts, pgTable users).
The id, email, name, role and qrCodeValue columns are strings; checkedIn is a
boolean defaulting to false; checkedInAt is a nullable timestamp; passwordHash
is nullable text; createdAt is a timestamp. -/
structure User where
  id : String
  email : String
  name : String
  role : String
  qrCodeValue : String
  checkedIn : Bool
  checkedInAt : Option Nat
  passwordHash : Option String
  createdAt : Nat
deriving DecidableEq

/-- DatabaseStorage.getUserByQRCode: select from users where qr_code_value
equals the argument; destructuring the first returned row. -/
def getUserByQRCode (users : List User) (q : String) : Option User :=
  users.find? (fun u => u.qrCodeValue == q)

/-- DatabaseStorage.getUserById: select from users where id equals the
argument; destructuring the first returned row. -/
def getUserById (users : List User) (i : String) : Option User :=
  users.find? (fun u => u.id == i)

/-- Embedding of the JavaScript String.toLowerCase call: lower-case the
string character by character.  Defined structurally over the character list
so that it evaluates inside the kernel. -/
def lowerString (s : String) : String :=
  String.mk (s.data.map Char.toLower)

/-- DatabaseStorage.getUserByEmail: select from users where email equals the
lower-cased argument. -/
def getUserByEmail (users : List User) (e : String) : Option User :=
  users.find? (fun u => u.email == lowerString e)

/-- DatabaseStorage.checkInUser: update users set checkedIn = true,
checkedInAt = new Date() where id = the argument. -/
def checkInUser (users : List User) (i : String) (now : Nat) : List User :=
  users.map (fun u =>
    if u.id == i then { u with checkedIn := true, checkedInAt := some now } else u)

/-- Modelled from the spec: DatabaseStorage.checkOutUser is invoked by the
POST /api/check-out route handler but its definition is absent from the
sources (storage.ts neither declares nor implements it).  The spec, section
4.2, says check-out atomically sets checkedIn = false and checkedInAt = null
for the record with the given id. -/
def checkOutUser (users : List User) (i : String) : List User :=
  users.map (fun u =>
    if u.id == i then { u with checkedIn := false, checkedInAt := none } else u)

/-- Outcome of the POST /api/check-in route: 400 when the body carries no
qrCodeValue, 404 when no user matches, an HTTP 200 body with success false
and alreadyCheckedIn true carrying name and email when the user is already
checked in, and an HTTP 200 body with success true carrying name and email
otherwise. -/
inductive CheckInResult where
  | badRequest : CheckInResult
  | notFound : CheckInResult
  | alreadyCheckedIn (name email : String) : CheckInResult
  | success (name email : String) : CheckInResult
deriving DecidableEq

/-- HTTP status code of each POST /api/check-in outcome. -/
def checkInStatus : CheckInResult → Nat
  | .badRequest => 400
  | .notFound => 404
  | .alreadyCheckedIn _ _ => 200
  | .success _ _ => 200

/-- Embedding of the POST /api/check-in route handler.  A missing or empty
qrCodeValue is falsy in JavaScript, so the guard at the top of the handler
rejects the empty string with a 400 before any lookup happens. -/
def checkInByToken (users : List User) (q : String) (now : Nat) :
    CheckInResult × List User :=
  if q = "" then (.badRequest, users)
  else
    match getUserByQRCode users q with
    | none => (.notFound, users)
    | some u =>
      if u.checkedIn then (.alreadyCheckedIn u.name u.email, users)
      else (.success u.name u.email, checkInUser users u.id now)

/-- Outcome of the POST /api/manual-check-in route: 400 when the body carries
no userId, 404 when no user matches, 400 with success false and no user
payload when the user is already checked in, and 200 with success true
carrying name and email otherwise. -/
inductive ManualCheckInResult where
  | badRequest : ManualCheckInResult
  | notFound : ManualCheckInResult
  | alreadyCheckedIn : ManualCheckInResult
  | success (name email : String) : ManualCheckInResult
deriving DecidableEq

/-- HTTP status code of each POST /api/manual-check-in outcome. -/
def manualCheckInStatus : ManualCheckInResult → Nat
  | .badRequest => 400
  | .notFound => 404
  | .alreadyCheckedIn => 400
  | .success _ _ => 200

/-- The success flag in the JSON body of each POST /api/manual-check-in
outcome. -/
def manualCheckInSuccessFlag : ManualCheckInResult → Bool
  | .success _ _ => true
  | _ => false

/-- Embedding of the POST /api/manual-check-in route handler. -/
def manualCheckIn (users : List User) (i : String) (now : Nat) :
    ManualCheckInResult × List User :=
  if i = "" then (.badRequest, users)
  else
    match getUserById users i with
    | none => (.notFound, users)
    | some u =>
      if u.checkedIn then (.alreadyCheckedIn, users)
      else (.success u.name u.email, checkInUser users u.id now)

/-- Outcome of the POST /api/check-out route: 400 when the body carries no
userId, 404 when no user matches, 400 when the user is not checked in, and
200 with success true carrying name and email otherwise. -/
inductive CheckOutResult where
  | badRequest : CheckOutResult
  | notFound : CheckOutResult
  | notCheckedIn : CheckOutResult
  | success (name email : String) : CheckOutResult
deriving DecidableEq

/-- HTTP status code of each POST /api/check-out outcome. -/
def checkOutStatus : CheckOutResult → Nat
  | .badRequest => 400
  | .notFound => 404
  | .notCheckedIn => 400
  | .success _ _ => 200

/-- Embedding of the POST /api/check-out route handler; the storage update it
calls is the spec-modelled checkOutUser. -/
def checkOutById (users : List User) (i : String) : CheckOutResult × List User :=
  if i = "" then (.badRequest, users)
  else
    match getUserById users i with
    | none => (.notFound, users)
    | some u =>
      if u.checkedIn then (.success u.name u.email, checkOutUser users u.id)
      else (.notCheckedIn, users)

/-- Statistics record returned by DatabaseStorage.getStats. -/
structure Stats where
  totalRegistered : Nat
  checkedIn : Nat
  pending : Nat
  attendeeCount : Nat
  staffCount : Nat
deriving DecidableEq

/-- DatabaseStorage.getStats: select all users, then count in memory. -/
def getStats (users : List User) : Stats :=
  { totalRegistered := users.length
    checkedIn := (users.filter (fun u => u.checkedIn)).length
    pending := users.length - (users.filter (fun u => u.checkedIn)).length
    attendeeCount := (users.filter (fun u => u.role == "attendee")).length
    staffCount := (users.filter (fun u => u.role == "staff")).length }

/-- Stable insertion into a list that is already ordered by the boolean
relation le; the new element goes in front of the first element it may
precede.  Used by the spec-side definition of the recent feed, whose wording
demands ties broken by insertion order. -/
def orderedIns {α : Type} (le : α → α → Bool) (x : α) : List α → List α
  | [] => [x]
  | y :: ys => if le x y then x :: y :: ys else y :: orderedIns le x ys

/-- Stable insertion sort with respect to the boolean relation le.  Elements
that compare equal keep their insertion order. -/
def stableSort {α : Type} (le : α → α → Bool) : List α → List α
  | [] => []
  | x :: xs => orderedIns le x (stableSort le xs)

/-- Comparison used by ORDER BY checked_in_at DESC in
DatabaseStorage.getRecentCheckIns.  PostgreSQL places NULL first in a
descending order, so a null timestamp ranks above every concrete one. -/
def recentOrder (a b : User) : Bool :=
  match a.checkedInAt, b.checkedInAt with
  | none, _ => true
  | some _, none => false
  | some x, some y => y ≤ x

/-- One element of the list returned by DatabaseStorage.getRecentCheckIns:
the id, name and email columns plus the check-in timestamp (the code formats
it with toISOString, an injective rendering that the embedding keeps as the
numeric timestamp). -/
structure RecentRow where
  id : String
  name : String
  email : String
  checkedInAt : Nat
deriving DecidableEq

/-- Projection applied by DatabaseStorage.getRecentCheckIns to each fetched
row; a null checkedInAt falls back to the current time, mirroring the
expression u.checkedInAt?.toISOString() || new Date().toISOString(). -/
def recentProj (now : Nat) (u : User) : RecentRow :=
  ⟨u.id, u.name, u.email, u.checkedInAt.getD now⟩

/-- DatabaseStorage.getRecentCheckIns runs select users where checkedIn is
true ordered by checkedInAt descending with limit, then maps recentProj over
the rows.  The query has no secondary sort key, and SQL leaves the relative
order of rows with equal checkedInAt (and of the NULLS FIRST block)
unspecified, so the query result is nondeterministic: the embedding is the
relation holding of every list the call may return, namely the projections
of a prefix of length at most limit of some ordering of the checked-in rows
that is consistent with recentOrder. -/
def IsRecentCheckInsResult (users : List User) (limit : Nat) (now : Nat)
    (out : List RecentRow) : Prop :=
  ∃ sorted : List User,
    List.Perm (users.filter (fun u => u.checkedIn)) sorted ∧
    List.Pairwise (fun a b => recentOrder a b = true) sorted ∧
    out = (sorted.take limit).map (recentProj now)

/-- Comparison the spec describes for the recent feed: by checkedInAt
descending, on records whose checkedInAt is non-null. -/
def specRecentOrder (a b : User) : Bool :=
  b.checkedInAt.getD 0 ≤ a.checkedInAt.getD 0

/-- Spec-side definition for the refinement in claim C7, following the words
of spec section 4.3: the limit most-recently-checked-in records, by
checkedInAt descending with ties broken by insertion order, each projected to
name, email and checkedInAt. -/
def recentCheckInsSpec (users : List User) (limit : Nat) :
    List (String × String × Nat) :=
  (((stableSort specRecentOrder (users.filter (fun u => u.checkedIn)))).take limit).map
    (fun u => (u.name, u.email, u.checkedInAt.getD 0))

/-- One registry transition of the core: record creation through the
POST /api/auth/register route (body validation, role whitelisting to
attendee or staff, duplicate-email rejection, row inserted with checkedIn
false and checkedInAt null), or one of the three check-in and check-out
handlers.  The freshly generated id, qr suffix and password hash enter as
oracle arguments. -/
inductive RegistryStep : List User → List User → Prop
  | register (users : List User) (email nm password role newId newQr hash : String)
      (now : Nat)
      (hemail : email ≠ "") (hname : nm ≠ "") (hpw : 6 ≤ password.length)
      (hfresh : getUserByEmail users (lowerString email) = none) :
      RegistryStep users (users ++
        [⟨newId, lowerString email, nm,
          if role = "attendee" ∨ role = "staff" then role else "attendee",
          "SC2026-" ++ newQr, false, none, some hash, now⟩])
  | checkInTok (users : List User) (q : String) (now : Nat) :
      RegistryStep users (checkInByToken users q now).2
  | checkInMan (users : List User) (i : String) (now : Nat) :
      RegistryStep users (manualCheckIn users i now).2
  | checkOut (users : List User) (i : String) :
      RegistryStep users (checkOutById users i).2

/-- Registry states reachable from the empty registry by the operations of
the core. -/
inductive ReachableRegistry : List User → Prop
  | nil : ReachableRegistry []
  | step (s s2 : List User) : ReachableRegistry s → RegistryStep s s2 →
      ReachableRegistry s2

/-- Program counter of one in-flight POST /api/check-in request handler, for
interleaving analysis.  The handler performs two storage operations: the
select in getUserByQRCode, and the unconditional update in checkInUser.
After the select, the decision whether to report already-checked-in is made
on the fetched snapshot; toWrite records a pending update. -/
inductive HandlerPC where
  | ready : HandlerPC
  | toWrite (uid nm em : String) : HandlerPC
  | done (r : CheckInResult) : HandlerPC
deriving DecidableEq

/-- One atomic storage access of one POST /api/check-in handler: either its
select plus the in-memory decision, or its update. -/
def handlerStep (users : List User) (pc : HandlerPC) (q : String) (now : Nat) :
    List User × HandlerPC :=
  match pc with
  | .ready =>
    if q = "" then (users, .done .badRequest)
    else
      match getUserByQRCode users q with
      | none => (users, .done .notFound)
      | some u =>
        if u.checkedIn then (users, .done (.alreadyCheckedIn u.name u.email))
        else (users, .toWrite u.id u.name u.email)
  | .toWrite uid nm em => (checkInUser users uid now, .done (.success nm em))
  | .done r => (users, .done r)

/-- Run a finite interleaving of several concurrent POST /api/check-in
handlers on the same token: the schedule names, per step, which handler
performs its next storage access. -/
def runSchedule (q : String) (now : Nat) :
    List Nat → List User → List HandlerPC → List User × List HandlerPC
  | [], users, pcs => (users, pcs)
  | i :: rest, users, pcs =>
    match pcs[i]? with
    | none => runSchedule q now rest users pcs
    | some pc =>
      let p := handlerStep users pc q now
      runSchedule q now rest p.1 (pcs.set i p.2)

/-- Number of handlers that finished with a success result. -/
def countSuccess (pcs : List HandlerPC) : Nat :=
  (pcs.filter (fun pc =>
    match pc with
    | .done (.success _ _) => true
    | _ => false)).length

/-- State of the client scan loop in ScanQRScreen: the scanned gate, the
success overlay flag, the transient error text, the last decoded payload
kept in lastScannedRef, the token of the at-most-one submission the model
tracks as awaiting a response, and the number of scheduled 2.5-second
outcome timers that have not yet fired.  The source schedules such a timer
with setTimeout in the already-checked-in and error branches and never
cancels it, so a timer can still be pending after the operator has manually
dismissed the outcome. -/
structure ClientState where
  scanned : Bool
  showSuccess : Bool
  errorMsg : String
  lastScanned : String
  inFlight : Option String
  checkedInName : String
  pendingTimers : Nat
deriving DecidableEq

/-- Client state when ScanQRScreen mounts. -/
def clientStart : ClientState :=
  { scanned := false, showSuccess := false, errorMsg := "", lastScanned := "",
    inFlight := none, checkedInName := "", pendingTimers := 0 }

/-- Events of the scan loop: a camera frame decoded to a payload, the three
mutation outcomes arriving for the in-flight submission, the manual
dismissal of the success overlay, the Scan Another button, and the firing of
one scheduled outcome timer. -/
inductive ClientEvent where
  | frame (data : String) : ClientEvent
  | respSuccess (nm : String) : ClientEvent
  | respAlready (nm : String) : ClientEvent
  | respError (msg : String) : ClientEvent
  | dismissSuccess : ClientEvent
  | scanAgain : ClientEvent
  | outcomeTimeout : ClientEvent
deriving DecidableEq

/-- One step of the client scan loop, returning the next state and the
payload submitted to POST /api/check-in, when any.  Each branch mirrors the
source: handleBarCodeScanned with its scanned gate, empty-payload guard and
lastScannedRef comparison; the onSuccess branches of the mutation (success
overlay, or error text plus a 2.5-second timer); onError likewise;
handleSuccessDismiss; handleScanAgain, rendered only while scanned is set
and no mutation is pending; and the timer callback, which unconditionally
clears the error text and the scanned gate. -/
def clientStep (s : ClientState) : ClientEvent → ClientState × Option String
  | .frame d =>
    if s.scanned then (s, none)
    else if d = "" then (s, none)
    else if d = s.lastScanned then (s, none)
    else ({ s with lastScanned := d, scanned := true, errorMsg := "",
                   inFlight := some d }, some d)
  | .respSuccess nm =>
    match s.inFlight with
    | none => (s, none)
    | some _ =>
      ({ s with inFlight := none, checkedInName := nm, showSuccess := true }, none)
  | .respAlready nm =>
    match s.inFlight with
    | none => (s, none)
    | some _ =>
      ({ s with inFlight := none, errorMsg := nm ++ " is already checked in",
                pendingTimers := s.pendingTimers + 1 }, none)
  | .respError msg =>
    match s.inFlight with
    | none => (s, none)
    | some _ =>
      ({ s with inFlight := none,
                errorMsg := if msg = "" then "Check-in failed" else msg,
                pendingTimers := s.pendingTimers + 1 }, none)
  | .dismissSuccess =>
    if s.showSuccess then
      ({ s with showSuccess := false, scanned := false, lastScanned := "" }, none)
    else (s, none)
  | .scanAgain =>
    if s.scanned = true ∧ s.inFlight = none then
      ({ s with scanned := false, errorMsg := "", lastScanned := "" }, none)
    else (s, none)
  | .outcomeTimeout =>
    if 0 < s.pendingTimers then
      ({ s with errorMsg := "", scanned := false,
                pendingTimers := s.pendingTimers - 1 }, none)
    else (s, none)

/-- Run the client scan loop over a list of events, collecting the submitted
payloads in order. -/
def runClient (s : ClientState) : List ClientEvent → ClientState × List (Option String)
  | [] => (s, [])
  | e :: es =>
    let p := clientStep s e
    let r := runClient p.1 es
    (r.1, p.2 :: r.2)

lemma forall2_map_self {α β : Type} {l : List α} {f : α → β} {R : α → β → Prop}
    (h : ∀ a ∈ l, R a (f a)) : List.Forall₂ R l (l.map f) := by
  rw [List.forall₂_map_right_iff]
  exact List.forall₂_same.2 h

/-- Pointwise description of the update run by checkInUser: the rows whose id
matches get checkedIn true and checkedInAt set, every other row is returned
untouched. -/
lemma checkInUser_frame (users : List User) (i : String) (now : Nat) :
    List.Forall₂ (fun u v =>
      (u.id = i → v = { u with checkedIn := true, checkedInAt := some now }) ∧
      (u.id ≠ i → v = u)) users (checkInUser users i now) := by
  apply forall2_map_self
  intro a _
  by_cases h : a.id = i
  · simp [h]
  · simp [h]

/-- Pointwise description of the update run by the spec-modelled
checkOutUser. -/
lemma checkOutUser_frame (users : List User) (i : String) :
    List.Forall₂ (fun u v =>
      (u.id = i → v = { u with checkedIn := false, checkedInAt := none }) ∧
      (u.id ≠ i → v = u)) users (checkOutUser users i) := by
  apply forall2_map_self
  intro a _
  by_cases h : a.id = i
  · simp [h]
  · simp [h]

lemma mem_checkInUser {v : User} {users : List User} {i : String} {now : Nat}
    (hv : v ∈ checkInUser users i now) :
    ∃ u, u ∈ users ∧
      (v = u ∨ v = { u with checkedIn := true, checkedInAt := some now }) := by
  rw [checkInUser] at hv
  rcases List.mem_map.1 hv with ⟨u, hu, rfl⟩
  refine ⟨u, hu, ?_⟩
  by_cases h : u.id = i
  · right; simp [h]
  · left; simp [h]

lemma mem_checkOutUser {v : User} {users : List User} {i : String}
    (hv : v ∈ checkOutUser users i) :
    ∃ u, u ∈ users ∧
      (v = u ∨ v = { u with checkedIn := false, checkedInAt := none }) := by
  rw [checkOutUser] at hv
  rcases List.mem_map.1 hv with ⟨u, hu, rfl⟩
  refine ⟨u, hu, ?_⟩
  by_cases h : u.id = i
  · right; simp [h]
  · left; simp [h]

/-- The registry after POST /api/check-in is either unchanged or the result
of one checkInUser update. -/
lemma checkInByToken_state_cases (users : List User) (q : String) (now : Nat) :
    (checkInByToken users q now).2 = users ∨
    ∃ i, (checkInByToken users q now).2 = checkInUser users i now := by
  rw [checkInByToken]
  split
  · exact Or.inl rfl
  · cases h : getUserByQRCode users q with
    | none => simp
    | some u =>
      cases hc : u.checkedIn
      · exact Or.inr ⟨u.id, by simp [h, hc]⟩
      · exact Or.inl (by simp [h, hc])

/-- The registry after POST /api/manual-check-in is either unchanged or the
result of one checkInUser update. -/
lemma manualCheckIn_state_cases (users : List User) (i : String) (now : Nat) :
    (manualCheckIn users i now).2 = users ∨
    ∃ j, (manualCheckIn users i now).2 = checkInUser users j now := by
  rw [manualCheckIn]
  split
  · exact Or.inl rfl
  · cases h : getUserById users i with
    | none => simp
    | some u =>
      cases hc : u.checkedIn
      · exact Or.inr ⟨u.id, by simp [h, hc]⟩
      · exact Or.inl (by simp [h, hc])

/-- The registry after POST /api/check-out is either unchanged or the result
of one checkOutUser update. -/
lemma checkOutById_state_cases (users : List User) (i : String) :
    (checkOutById users i).2 = users ∨
    ∃ j, (checkOutById users i).2 = checkOutUser users j := by
  rw [checkOutById]
  split
  · exact Or.inl rfl
  · cases h : getUserById users i with
    | none => simp
    | some u =>
      cases hc : u.checkedIn
      · exact Or.inl (by simp [h, hc])
      · exact Or.inr ⟨u.id, by simp [h, hc]⟩

lemma mem_orderedIns {α : Type} (le : α → α → Bool) (x : α) (l : List α) (a : α) :
    a ∈ orderedIns le x l ↔ a = x ∨ a ∈ l := by
  induction l with
  | nil => simp [orderedIns]
  | cons y ys ih =>
    rw [orderedIns]
    split
    · simp
    · simp only [List.mem_cons, ih]
      tauto

lemma mem_stableSort {α : Type} (le : α → α → Bool) (l : List α) (a : α) :
    a ∈ stableSort le l ↔ a ∈ l := by
  induction l with
  | nil => simp [stableSort]
  | cons x xs ih =>
    rw [stableSort, mem_orderedIns]
    simp [ih]

lemma pairwise_orderedIns {α : Type} (le : α → α → Bool)
    (htot : ∀ a b, le a b = true ∨ le b a = true)
    (htrans : ∀ a b c, le a b = true → le b c = true → le a c = true)
    (x : α) (l : List α) (hl : List.Pairwise (fun a b => le a b = true) l) :
    List.Pairwise (fun a b => le a b = true) (orderedIns le x l) := by
  induction l with
  | nil => simp [orderedIns]
  | cons y ys ih =>
    rw [orderedIns]
    rcases List.pairwise_cons.1 hl with ⟨hy, hys⟩
    split
    · rename_i hxy
      refine List.pairwise_cons.2 ⟨?_, hl⟩
      intro z hz
      rcases List.mem_cons.1 hz with rfl | hz
      · exact hxy
      · exact htrans x y z hxy (hy z hz)
    · rename_i hxy
      have hyx : le y x = true := by
        rcases htot x y with h | h
        · exact absurd h hxy
        · exact h
      refine List.pairwise_cons.2 ⟨?_, ih hys⟩
      intro z hz
      rcases (mem_orderedIns le x ys z).1 hz with rfl | hz
      · exact hyx
      · exact hy z hz

lemma pairwise_stableSort {α : Type} (le : α → α → Bool)
    (htot : ∀ a b, le a b = true ∨ le b a = true)
    (htrans : ∀ a b c, le a b = true → le b c = true → le a c = true)
    (l : List α) :
    List.Pairwise (fun a b => le a b = true) (stableSort le l) := by
  induction l with
  | nil => simp [stableSort]
  | cons x xs ih =>
    rw [stableSort]
    exact pairwise_orderedIns le htot htrans x _ ih

lemma orderedIns_congr {α : Type} (le1 le2 : α → α → Bool) (x : α) (l : List α)
    (hx : ∀ b ∈ l, le1 x b = le2 x b) :
    orderedIns le1 x l = orderedIns le2 x l := by
  induction l with
  | nil => simp [orderedIns]
  | cons y ys ih =>
    rw [orderedIns, orderedIns, hx y (by simp)]
    split
    · rfl
    · rw [ih (fun b hb => hx b (by simp [hb]))]

lemma stableSort_congr {α : Type} (le1 le2 : α → α → Bool) (l : List α)
    (h : ∀ a ∈ l, ∀ b ∈ l, le1 a b = le2 a b) :
    stableSort le1 l = stableSort le2 l := by
  induction l with
  | nil => simp [stableSort]
  | cons x xs ih =>
    rw [stableSort, stableSort]
    rw [ih (fun a ha b hb => h a (by simp [ha]) b (by simp [hb]))]
    apply orderedIns_congr
    intro b hb
    have hb2 : b ∈ xs := (mem_stableSort le2 xs b).1 hb
    exact h x (by simp) b (by simp [hb2])

/-- Sample pending attendee used by concrete instantiations. -/
def sampleAttendee : User :=
  ⟨"u1", "a@x", "A", "attendee", "T", false, none, none, 0⟩

/-- Sample pending staff member used by concrete instantiations. -/
def sampleStaff : User :=
  ⟨"s1", "s@x", "S", "staff", "SC2026-STAFF-001", false, none, none, 0⟩

/-- Sample already-checked-in attendee used by concrete instantiations. -/
def sampleCheckedIn : User :=
  ⟨"u2", "b@x", "B", "attendee", "TB", true, some 2, none, 0⟩

/-- Claim C1 (counterexample): the claim states that whenever no record has
qrToken t the handler returns NotFound, for every token string t.  At the
empty token string the handler returns the 400 bad-request outcome instead,
because the JavaScript falsiness guard fires before the lookup. -/
theorem C1_emptyToken_counterexample :
    ¬ (getUserByQRCode [] "" = none →
        (checkInByToken [] "" 0).1 = CheckInResult.notFound) := by
  decide

/-- Claim C1 (amended): for every registry state and nonempty token string t,
POST /api/check-in returns NotFound with the registry unchanged when no
record has qrToken t; when the matching record is pending it returns a
success result carrying the name and email and sets exactly that record to
checkedIn true with checkedInAt now; when the matching record is already
checked in it returns the non-error already-checked-in result carrying the
name and email with the registry unchanged.  An empty token is answered with
400 before any lookup. -/
theorem C1_checkInByToken_contract (users : List User) (q : String) (now : Nat)
    (hq : q ≠ "") :
    (getUserByQRCode users q = none →
      checkInByToken users q now = (CheckInResult.notFound, users)) ∧
    (∀ u, getUserByQRCode users q = some u → u.checkedIn = false →
      (checkInByToken users q now).1 = CheckInResult.success u.name u.email ∧
      List.Forall₂ (fun a b =>
        (a.id = u.id → b = { a with checkedIn := true, checkedInAt := some now }) ∧
        (a.id ≠ u.id → b = a)) users (checkInByToken users q now).2) ∧
    (∀ u, getUserByQRCode users q = some u → u.checkedIn = true →
      checkInByToken users q now =
        (CheckInResult.alreadyCheckedIn u.name u.email, users)) := by
  refine ⟨?_, ?_, ?_⟩
  · intro h
    simp [checkInByToken, hq, h]
  · intro u hu hci
    constructor
    · simp [checkInByToken, hq, hu, hci]
    · have h2 := checkInUser_frame users u.id now
      simpa [checkInByToken, hq, hu, hci] using h2
  · intro u hu hci
    simp [checkInByToken, hq, hu, hci]

/-- Claim C1 (witness): the amended contract evaluated on the empty registry
and an unknown nonempty token. -/
theorem C1_checkInByToken_contract_witness :
    checkInByToken [] "X" 3 = (CheckInResult.notFound, ([] : List User)) :=
  (C1_checkInByToken_contract [] "X" 3 (by decide)).1 (by decide)

/-- Claim C2 (counterexample): the claim quantifies over every registry state
and attendee id; on a registry whose matching record has the empty id and is
checked in, the handler answers the 400 missing-id outcome and changes
nothing, instead of clearing the record and returning success. -/
theorem C2_emptyId_counterexample :
    ¬ (getUserById [⟨"", "b@x", "B", "attendee", "TB", true, some 3, none, 0⟩] "" =
          some ⟨"", "b@x", "B", "attendee", "TB", true, some 3, none, 0⟩ →
        (checkOutById [⟨"", "b@x", "B", "attendee", "TB", true, some 3, none, 0⟩] "").1 =
          CheckOutResult.success "B" "b@x") := by
  decide

/-- Claim C2 (amended): for every registry state and nonempty attendee id
matching a record, POST /api/check-out fails with NotCheckedIn (400) and
leaves the registry unchanged when the record is pending; otherwise it
clears exactly that record (checkedIn false, checkedInAt null) and returns a
success result with the record name and email.  The storage update is the
spec-modelled checkOutUser. -/
theorem C2_checkOutById_contract (users : List User) (i : String) (u : User)
    (hi : i ≠ "") (hu : getUserById users i = some u) :
    (u.checkedIn = false →
      checkOutById users i = (CheckOutResult.notCheckedIn, users)) ∧
    (u.checkedIn = true →
      (checkOutById users i).1 = CheckOutResult.success u.name u.email ∧
      List.Forall₂ (fun a b =>
        (a.id = u.id → b = { a with checkedIn := false, checkedInAt := none }) ∧
        (a.id ≠ u.id → b = a)) users (checkOutById users i).2) := by
  constructor
  · intro hci
    simp [checkOutById, hi, hu, hci]
  · intro hci
    constructor
    · simp [checkOutById, hi, hu, hci]
    · have h2 := checkOutUser_frame users u.id
      simpa [checkOutById, hi, hu, hci] using h2

/-- Claim C2 (witness): the amended contract evaluated on a one-record
registry whose record is pending. -/
theorem C2_checkOutById_contract_witness :
    checkOutById [sampleAttendee] "u1" =
      (CheckOutResult.notCheckedIn, [sampleAttendee]) :=
  (C2_checkOutById_contract [sampleAttendee] "u1" sampleAttendee
    (by decide) (by decide)).1 (by decide)

/-- Claim C3: evaluation of the code at the failing interleaving.  Two
concurrent POST /api/check-in handlers for the same pending token, scheduled
select, select, update, update, both finish with a success result, because
the handler is a separate read followed by an unconditional write rather
than a single conditional update; the claim demands exactly one success. -/
theorem C3_concurrent_double_success :
    countSuccess (runSchedule "T" 5 [0, 1, 0, 1] [sampleAttendee]
        [HandlerPC.ready, HandlerPC.ready]).2 = 2 ∧
    (runSchedule "T" 5 [0, 1, 0, 1] [sampleAttendee]
        [HandlerPC.ready, HandlerPC.ready]).2 =
      [HandlerPC.done (CheckInResult.success "A" "a@x"),
       HandlerPC.done (CheckInResult.success "A" "a@x")] ∧
    (runSchedule "T" 5 [0, 1, 0, 1] [sampleAttendee]
        [HandlerPC.ready, HandlerPC.ready]).1 =
      [⟨"u1", "a@x", "A", "attendee", "T", true, some 5, none, 0⟩] := by
  decide

/-- Claim C5 (counterexample): scanning the token of a pending staff record
checks the staff member in and reports success, and the manual path does the
same; no ForbiddenRole failure exists anywhere in the handlers. -/
theorem C5_staff_checkin_counterexample :
    (checkInByToken [sampleStaff] "SC2026-STAFF-001" 7).2 ≠ [sampleStaff] ∧
    (checkInByToken [sampleStaff] "SC2026-STAFF-001" 7).1 =
      CheckInResult.success "S" "s@x" ∧
    (manualCheckIn [sampleStaff] "s1" 7).1 =
      ManualCheckInResult.success "S" "s@x" ∧
    ∃ u, u ∈ (checkInByToken [sampleStaff] "SC2026-STAFF-001" 7).2 ∧
      u.role = "staff" ∧ u.checkedIn = true := by
  decide

/-- Claim C5 (amended): neither check-in operation inspects role.  A pending
record whose role is staff is transitioned to checked-in and reported as a
success by both the token path and the manual path, exactly like an attendee
record. -/
theorem C5_role_ignored (users : List User) (now : Nat) (u : User)
    (hrole : u.role = "staff") (hci : u.checkedIn = false) :
    (∀ q, q ≠ "" → getUserByQRCode users q = some u →
      checkInByToken users q now =
        (CheckInResult.success u.name u.email, checkInUser users u.id now)) ∧
    (∀ i, i ≠ "" → getUserById users i = some u →
      manualCheckIn users i now =
        (ManualCheckInResult.success u.name u.email, checkInUser users u.id now)) := by
  constructor
  · intro q hq hu
    simp [checkInByToken, hq, hu, hci]
  · intro i hi hu
    simp [manualCheckIn, hi, hu, hci]

/-- Claim C5 (witness): the amended statement evaluated on a one-record
registry holding a pending staff member. -/
theorem C5_role_ignored_witness :
    checkInByToken [sampleStaff] "SC2026-STAFF-001" 7 =
      (CheckInResult.success "S" "s@x",
        [⟨"s1", "s@x", "S", "staff", "SC2026-STAFF-001", true, some 7, none, 0⟩]) :=
  ((C5_role_ignored [sampleStaff] 7 sampleStaff (by decide) (by decide)).1
    "SC2026-STAFF-001" (by decide) (by decide)).trans (by decide)

/-- Claim C6: for a record that is already checked in, POST /api/manual-check-in
returns the hard AlreadyCheckedIn error (HTTP 400, success false) and leaves
the registry unchanged, while POST /api/check-in on the same record returns
the soft non-error already-checked-in result (HTTP 200) carrying the record
name and email. -/
theorem C6_manual_hard_token_soft (users : List User) (i : String) (now : Nat)
    (u : User) (hi : i ≠ "") (hu : getUserById users i = some u)
    (hci : u.checkedIn = true) :
    manualCheckIn users i now = (ManualCheckInResult.alreadyCheckedIn, users) ∧
    manualCheckInStatus ManualCheckInResult.alreadyCheckedIn = 400 ∧
    manualCheckInSuccessFlag ManualCheckInResult.alreadyCheckedIn = false ∧
    (∀ q, q ≠ "" → getUserByQRCode users q = some u →
      checkInByToken users q now =
        (CheckInResult.alreadyCheckedIn u.name u.email, users) ∧
      checkInStatus (CheckInResult.alreadyCheckedIn u.name u.email) = 200) := by
  refine ⟨by simp [manualCheckIn, hi, hu, hci], rfl, rfl, ?_⟩
  intro q hq hqu
  exact ⟨by simp [checkInByToken, hq, hqu, hci], rfl⟩

/-- Claim C6 (witness): the contract evaluated on a one-record registry whose
record is checked in, fetched by id u2 and by token TB. -/
theorem C6_manual_hard_token_soft_witness :
    manualCheckIn [sampleCheckedIn] "u2" 9 =
      (ManualCheckInResult.alreadyCheckedIn, [sampleCheckedIn]) ∧
    checkInByToken [sampleCheckedIn] "TB" 9 =
      (CheckInResult.alreadyCheckedIn "B" "b@x", [sampleCheckedIn]) := by
  have h := C6_manual_hard_token_soft [sampleCheckedIn] "u2" 9 sampleCheckedIn
    (by decide) (by decide) (by decide)
  exact ⟨h.1, (h.2.2.2 "TB" (by decide) (by decide)).1⟩

/-- Claim C9: evaluation of the client scan loop at the failing reachable
trace.  The 2.5-second outcome timer scheduled by the error branch is never
cancelled; after the operator dismisses the error early with Scan Another
and scans badge B, the stale timer fires and re-opens the scanned gate while
the submission for B is still in flight, so the next decoded frame C is
submitted even though a submission is in flight.  The claim says a newly
decoded frame triggers no new submission while a submission is in flight. -/
theorem C9_stale_timer_double_submission :
    (runClient clientStart
        [ClientEvent.frame "A", ClientEvent.respError "network",
         ClientEvent.scanAgain, ClientEvent.frame "B",
         ClientEvent.outcomeTimeout]).1.inFlight = some "B" ∧
    (runClient clientStart
        [ClientEvent.frame "A", ClientEvent.respError "network",
         ClientEvent.scanAgain, ClientEvent.frame "B",
         ClientEvent.outcomeTimeout]).1.showSuccess = false ∧
    (runClient clientStart
        [ClientEvent.frame "A", ClientEvent.respError "network",
         ClientEvent.scanAgain, ClientEvent.frame "B",
         ClientEvent.outcomeTimeout]).1.errorMsg = "" ∧
    (clientStep (runClient clientStart
        [ClientEvent.frame "A", ClientEvent.respError "network",
         ClientEvent.scanAgain, ClientEvent.frame "B",
         ClientEvent.outcomeTimeout]).1 (ClientEvent.frame "C")).2 = some "C" := by
  decide

/-- Claim C10: a successful POST /api/check-in modifies only the matched
record checkedIn and checkedInAt fields; every row keeps its id, email,
name, role, qrCodeValue, passwordHash and createdAt, and every row whose id
differs from the matched record id is entirely unchanged. -/
theorem C10_success_frame_condition (users : List User) (q : String) (now : Nat)
    (nm em : String) (users2 : List User)
    (h : checkInByToken users q now = (CheckInResult.success nm em, users2)) :
    ∃ u, getUserByQRCode users q = some u ∧
      List.Forall₂ (fun a b =>
        b.id = a.id ∧ b.email = a.email ∧ b.name = a.name ∧ b.role = a.role ∧
        b.qrCodeValue = a.qrCodeValue ∧ b.passwordHash = a.passwordHash ∧
        b.createdAt = a.createdAt ∧ (a.id ≠ u.id → b = a)) users users2 := by
  by_cases hq : q = ""
  · rw [checkInByToken] at h
    simp [hq] at h
  · rw [checkInByToken, if_neg hq] at h
    cases hu : getUserByQRCode users q with
    | none =>
      rw [hu] at h
      simp at h
    | some u =>
      rw [hu] at h
      cases hc : u.checkedIn with
      | true =>
        simp [hc] at h
      | false =>
        simp [hc] at h
        refine ⟨u, rfl, ?_⟩
        have h2 := checkInUser_frame users u.id now
        rw [← h.2]
        refine h2.imp ?_
        intro a b hab
        by_cases hid : a.id = u.id
        · have hb := hab.1 hid
          subst hb
          simp [hid]
        · have hb := hab.2 hid
          subst hb
          simp [hid]

/-- Claim C10 (witness): the frame condition evaluated on a two-record
registry where the first record is checked in by token. -/
theorem C10_success_frame_condition_witness :
    List.Forall₂ (fun a b =>
        b.id = a.id ∧ b.email = a.email ∧ b.name = a.name ∧ b.role = a.role ∧
        b.qrCodeValue = a.qrCodeValue ∧ b.passwordHash = a.passwordHash ∧
        b.createdAt = a.createdAt ∧ (a.id ≠ "u1" → b = a))
      [sampleAttendee, sampleCheckedIn]
      [⟨"u1", "a@x", "A", "attendee", "T", true, some 5, none, 0⟩,
       sampleCheckedIn] := by
  rcases C10_success_frame_condition [sampleAttendee, sampleCheckedIn] "T" 5
      "A" "a@x"
      [⟨"u1", "a@x", "A", "attendee", "T", true, some 5, none, 0⟩, sampleCheckedIn]
      (by decide) with ⟨u, hu, hf⟩
  have heq : u = sampleAttendee := by
    have := hu
    simp [getUserByQRCode, sampleAttendee, sampleCheckedIn] at this
    exact this.symm
  subst heq
  exact hf

/-- Registry obtained from the empty registry by one register step, shared
by the concrete instantiations of the reachability theorems. -/
def sampleRegState : List User :=
  [⟨"u1", "a@x.com", "Ada", "attendee", "SC2026-tok", false, none, some "ph", 3⟩]

lemma sampleRegState_reachable : ReachableRegistry sampleRegState := by
  refine ReachableRegistry.step [] sampleRegState ReachableRegistry.nil ?_
  have h := RegistryStep.register [] "a@x.com" "Ada" "secret1" "attendee"
    "u1" "tok" "ph" 3 (by decide) (by decide) (by decide) rfl
  have he : ([] : List User) ++
      [⟨"u1", lowerString "a@x.com", "Ada",
        if "attendee" = "attendee" ∨ "attendee" = "staff" then "attendee"
        else "attendee",
        "SC2026-" ++ "tok", false, none, some "ph", 3⟩] = sampleRegState := by
    decide
  exact he ▸ h

/-- Claim C4: in every registry state reachable from the empty registry by
the operations of the core (registration, POST /api/check-in,
POST /api/manual-check-in, POST /api/check-out), a record has a non-null
checkedInAt exactly when its checkedIn flag is true. -/
theorem C4_checkedInAt_iff_checkedIn (s : List User) (h : ReachableRegistry s) :
    ∀ u ∈ s, u.checkedIn = true ↔ u.checkedInAt ≠ none := by
  induction h with
  | nil =>
    intro u hu
    simp at hu
  | step s s2 hr hstep ih =>
    intro v hv
    cases hstep with
    | register email nm password role newId newQr hash now he hn hp hf =>
      rcases List.mem_append.1 hv with hv2 | hv2
      · exact ih v hv2
      · simp only [List.mem_singleton] at hv2
        subst hv2
        simp
    | checkInTok q now =>
      rcases checkInByToken_state_cases s q now with hst | ⟨i, hst⟩
      · rw [hst] at hv
        exact ih v hv
      · rw [hst] at hv
        rcases mem_checkInUser hv with ⟨u, hu, huv | huv⟩
        · rw [huv]
          exact ih u hu
        · rw [huv]
          simp
    | checkInMan i now =>
      rcases manualCheckIn_state_cases s i now with hst | ⟨j, hst⟩
      · rw [hst] at hv
        exact ih v hv
      · rw [hst] at hv
        rcases mem_checkInUser hv with ⟨u, hu, huv | huv⟩
        · rw [huv]
          exact ih u hu
        · rw [huv]
          simp
    | checkOut i =>
      rcases checkOutById_state_cases s i with hst | ⟨j, hst⟩
      · rw [hst] at hv
        exact ih v hv
      · rw [hst] at hv
        rcases mem_checkOutUser hv with ⟨u, hu, huv | huv⟩
        · rw [huv]
          exact ih u hu
        · rw [huv]
          simp

/-- Claim C4 (witness): the invariant evaluated on the record of a concrete
reachable registry. -/
theorem C4_checkedInAt_iff_checkedIn_witness :
    (⟨"u1", "a@x.com", "Ada", "attendee", "SC2026-tok", false, none, some "ph", 3⟩
        : User).checkedIn = true ↔
    (⟨"u1", "a@x.com", "Ada", "attendee", "SC2026-tok", false, none, some "ph", 3⟩
        : User).checkedInAt ≠ none :=
  C4_checkedInAt_iff_checkedIn sampleRegState sampleRegState_reachable
    ⟨"u1", "a@x.com", "Ada", "attendee", "SC2026-tok", false, none, some "ph", 3⟩
    (by decide)

/-- Every record of a reachable registry carries role attendee or staff: the
register route whitelists the requested role and the check-in and check-out
updates leave the role column untouched. -/
lemma roles_invariant (s : List User) (h : ReachableRegistry s) :
    ∀ u ∈ s, u.role = "attendee" ∨ u.role = "staff" := by
  induction h with
  | nil =>
    intro u hu
    simp at hu
  | step s s2 hr hstep ih =>
    intro v hv
    cases hstep with
    | register email nm password role newId newQr hash now he hn hp hf =>
      rcases List.mem_append.1 hv with hv2 | hv2
      · exact ih v hv2
      · simp only [List.mem_singleton] at hv2
        subst hv2
        show (if role = "attendee" ∨ role = "staff" then role else "attendee") =
            "attendee" ∨
          (if role = "attendee" ∨ role = "staff" then role else "attendee") =
            "staff"
        split
        · rename_i hrole
          exact hrole
        · exact Or.inl rfl
    | checkInTok q now =>
      rcases checkInByToken_state_cases s q now with hst | ⟨i, hst⟩
      · rw [hst] at hv
        exact ih v hv
      · rw [hst] at hv
        rcases mem_checkInUser hv with ⟨u, hu, huv | huv⟩
        · rw [huv]
          exact ih u hu
        · rw [huv]
          simpa using ih u hu
    | checkInMan i now =>
      rcases manualCheckIn_state_cases s i now with hst | ⟨j, hst⟩
      · rw [hst] at hv
        exact ih v hv
      · rw [hst] at hv
        rcases mem_checkInUser hv with ⟨u, hu, huv | huv⟩
        · rw [huv]
          exact ih u hu
        · rw [huv]
          simpa using ih u hu
    | checkOut i =>
      rcases checkOutById_state_cases s i with hst | ⟨j, hst⟩
      · rw [hst] at hv
        exact ih v hv
      · rw [hst] at hv
        rcases mem_checkOutUser hv with ⟨u, hu, huv | huv⟩
        · rw [huv]
          exact ih u hu
        · rw [huv]
          simpa using ih u hu

/-- Counting rows by role: when every row is attendee or staff, the two
filters partition the list. -/
lemma count_roles (l : List User)
    (h : ∀ u ∈ l, u.role = "attendee" ∨ u.role = "staff") :
    (l.filter (fun u => u.role == "attendee")).length +
      (l.filter (fun u => u.role == "staff")).length = l.length := by
  induction l with
  | nil => simp
  | cons u us ih =>
    have hu := h u (by simp)
    have hus : ∀ v ∈ us, v.role = "attendee" ∨ v.role = "staff" :=
      fun v hv => h v (List.mem_cons_of_mem _ hv)
    have hih := ih hus
    rcases hu with h1 | h1
    · simp only [List.filter_cons, h1]
      simp
      omega
    · simp only [List.filter_cons, h1]
      simp
      omega

/-- Claim C8: for every reachable registry state, the statistics satisfy
attendeeCount plus staffCount equals totalRegistered; this rests on the
register route whitelisting the role to attendee or staff. -/
theorem C8_stats_role_partition (s : List User) (h : ReachableRegistry s) :
    (getStats s).attendeeCount + (getStats s).staffCount =
      (getStats s).totalRegistered := by
  have hc := count_roles s (roles_invariant s h)
  simpa [getStats] using hc

/-- Claim C8 (witness): the statistics identity evaluated on a concrete
reachable registry. -/
theorem C8_stats_role_partition_witness :
    (getStats sampleRegState).attendeeCount + (getStats sampleRegState).staffCount =
      (getStats sampleRegState).totalRegistered :=
  C8_stats_role_partition sampleRegState sampleRegState_reachable

lemma recentOrder_total (a b : User) :
    recentOrder a b = true ∨ recentOrder b a = true := by
  cases ha : a.checkedInAt with
  | none =>
    left
    simp [recentOrder, ha]
  | some x =>
    cases hb : b.checkedInAt with
    | none =>
      right
      simp [recentOrder, hb]
    | some y =>
      simp [recentOrder, ha, hb]
      omega

lemma recentOrder_trans (a b c : User) (h1 : recentOrder a b = true)
    (h2 : recentOrder b c = true) : recentOrder a c = true := by
  cases ha : a.checkedInAt with
  | none => simp [recentOrder, ha]
  | some x =>
    cases hb : b.checkedInAt with
    | none => simp [recentOrder, ha, hb] at h1
    | some y =>
      cases hc : c.checkedInAt with
      | none => simp [recentOrder, hb, hc] at h2
      | some z =>
        simp [recentOrder, ha, hb, hc] at h1 h2 ⊢
        omega

/-- On rows with non-null timestamps the SQL descending order coincides with
the spec order. -/
lemma recentOrder_eq_spec {a b : User} (ha : a.checkedInAt ≠ none)
    (hb : b.checkedInAt ≠ none) : recentOrder a b = specRecentOrder a b := by
  cases ha2 : a.checkedInAt with
  | none => exact absurd ha2 ha
  | some x =>
    cases hb2 : b.checkedInAt with
    | none => exact absurd hb2 hb
    | some y => simp [recentOrder, specRecentOrder, ha2, hb2]

/-- Claim C7 (counterexample): the claim promises ties broken by insertion
order, but the query orders by checked_in_at descending with no secondary
sort key, so SQL leaves the order of equal timestamps unspecified.  On a
registry holding A then B, both checked in at time 5, the list with B before
A is a result the query may return, and its projection differs from the
spec-side feed, which breaks ties by insertion order. -/
theorem C7_tie_order_counterexample :
    IsRecentCheckInsResult
      [⟨"a1", "a@x", "A", "attendee", "TA", true, some 5, none, 0⟩,
       ⟨"b1", "b@x", "B", "attendee", "TB", true, some 5, none, 0⟩] 10 0
      [⟨"b1", "B", "b@x", 5⟩, ⟨"a1", "A", "a@x", 5⟩] ∧
    ([⟨"b1", "B", "b@x", 5⟩, ⟨"a1", "A", "a@x", 5⟩] : List RecentRow).map
        (fun r => (r.name, r.email, r.checkedInAt)) ≠
      recentCheckInsSpec
        [⟨"a1", "a@x", "A", "attendee", "TA", true, some 5, none, 0⟩,
         ⟨"b1", "b@x", "B", "attendee", "TB", true, some 5, none, 0⟩] 10 :=
  ⟨⟨[⟨"b1", "b@x", "B", "attendee", "TB", true, some 5, none, 0⟩,
     ⟨"a1", "a@x", "A", "attendee", "TA", true, some 5, none, 0⟩],
    by decide, by decide, by decide⟩,
   by decide⟩

/-- Claim C7 (amended): on every registry satisfying the checkedInAt
invariant, every list the recent check-ins query may return contains only
checked-in records, at most limit of them, in descending checkedInAt order,
and each element carries the matching record id, name, email and check-in
timestamp; the relative order of records with equal checkedInAt is not
specified by the query. -/
theorem C7_recentCheckIns_contract (users : List User) (limit : Nat) (now : Nat)
    (out : List RecentRow)
    (hinv : ∀ u ∈ users, u.checkedIn = true → u.checkedInAt ≠ none)
    (hout : IsRecentCheckInsResult users limit now out) :
    (∀ r ∈ out, ∃ u, u ∈ users ∧
        u.checkedIn = true ∧ r.id = u.id ∧ r.name = u.name ∧ r.email = u.email ∧
        u.checkedInAt = some r.checkedInAt) ∧
    out.length ≤ limit ∧
    List.Pairwise (fun a b => b.checkedInAt ≤ a.checkedInAt) out := by
  rcases hout with ⟨sorted, hperm, hsort, rfl⟩
  have hmemF : ∀ u ∈ users.filter (fun u => u.checkedIn),
      u ∈ users ∧ u.checkedIn = true := by
    intro u hu
    have h2 := List.mem_filter.1 hu
    exact ⟨h2.1, h2.2⟩
  have hsortedF : ∀ u ∈ sorted, u ∈ users.filter (fun u => u.checkedIn) :=
    fun u hu => hperm.symm.subset hu
  have hFsome : ∀ u ∈ sorted, u.checkedInAt ≠ none :=
    fun u hu => hinv u (hmemF u (hsortedF u hu)).1 (hmemF u (hsortedF u hu)).2
  have hmemT : ∀ u ∈ sorted.take limit, u ∈ sorted :=
    fun u hu => List.take_subset _ _ hu
  refine ⟨?_, ?_, ?_⟩
  · intro r hr
    rcases List.mem_map.1 hr with ⟨u, hu, rfl⟩
    have huS := hmemT u hu
    have h1 := hmemF u (hsortedF u huS)
    have h2 := hFsome u huS
    refine ⟨u, h1.1, h1.2, rfl, rfl, rfl, ?_⟩
    cases h3 : u.checkedInAt with
    | none => exact absurd h3 h2
    | some t => simp [recentProj, h3]
  · simp [List.length_take]
  · apply List.pairwise_map.2
    have hpT := List.Pairwise.sublist (List.take_sublist limit sorted) hsort
    refine List.Pairwise.imp_of_mem ?_ hpT
    intro a b ha hb hab
    have ha2 := hFsome a (hmemT a ha)
    have hb2 := hFsome b (hmemT b hb)
    cases ha3 : a.checkedInAt with
    | none => exact absurd ha3 ha2
    | some x =>
      cases hb3 : b.checkedInAt with
      | none => exact absurd hb3 hb2
      | some y =>
        simp [recentOrder, ha3, hb3] at hab
        simpa [recentProj, ha3, hb3] using hab

/-- Claim C7 (witness): the amended contract evaluated on the spec section 8
scenario, attendees checked in at times 1, 2 and 3 with limit 2, on the
admissible result C then B. -/
theorem C7_recentCheckIns_contract_witness :
    ([⟨"c1", "C", "c@x", 3⟩, ⟨"b1", "B", "b@x", 2⟩] : List RecentRow).length ≤ 2 ∧
    List.Pairwise (fun a b => b.checkedInAt ≤ a.checkedInAt)
      ([⟨"c1", "C", "c@x", 3⟩, ⟨"b1", "B", "b@x", 2⟩] : List RecentRow) :=
  (C7_recentCheckIns_contract
      [⟨"a1", "a@x", "A", "attendee", "TA", true, some 1, none, 0⟩,
       ⟨"b1", "b@x", "B", "attendee", "TB", true, some 2, none, 0⟩,
       ⟨"c1", "c@x", "C", "attendee", "TC", true, some 3, none, 0⟩] 2 99
      [⟨"c1", "C", "c@x", 3⟩, ⟨"b1", "B", "b@x", 2⟩]
      (by decide)
      ⟨[⟨"c1", "c@x", "C", "attendee", "TC", true, some 3, none, 0⟩,
        ⟨"b1", "b@x", "B", "attendee", "TB", true, some 2, none, 0⟩,
        ⟨"a1", "a@x", "A", "attendee", "TA", true, some 1, none, 0⟩],
       by decide, by decide, by decide⟩).2
